import Mathlib

/-!
Shallow embedding of the `skyline-update-hacky-directory-support` repository:
the client install state machine (`src/skyline-update/src/lib.rs`) and the
server package registry (`src/update-server/src/hosted_plugins.rs`).

Filesystem and network effects are made explicit: the server registry reads
through an abstract `ServerFs` record (one field per `std::fs` / `walkdir`
operation the source performs), the client loop threads an explicit
`ClientState` (the set of existing files and directories on the sd card) and
consumes abstract connection outcomes.  Bytes are `List Nat`; paths are
`String`, manipulated by `/`-component functions mirroring the source's use
of `Path::join`, `str::split("/")`, `Vec::split_off` and `Path::extension`.
-/

namespace SkyUpd

/-- Decimal digit character for `d < 10` (any `d ≥ 9` maps to `'9'`). -/
def digitChar (d : Nat) : Char :=
  match d with
  | 0 => '0' | 1 => '1' | 2 => '2' | 3 => '3' | 4 => '4'
  | 5 => '5' | 6 => '6' | 7 => '7' | 8 => '8' | _ => '9'

/-- Fuel-driven decimal printer (most significant digit first); with fuel
greater than `n` it prints exactly the standard decimal digits of `n`. -/
def natToDigitsAux : Nat → Nat → List Char
  | 0, _ => []
  | fuel + 1, n =>
    if n < 10 then [digitChar n]
    else natToDigitsAux fuel (n / 10) ++ [digitChar (n % 10)]

/-- Decimal digits of `n`, as `u64`'s `Display` implementation prints them. -/
def natToString (n : Nat) : List Char := natToDigitsAux (n + 1) n

/-- Numeric value of a decimal digit character. -/
def digitVal (c : Char) : Option Nat :=
  if '0' ≤ c ∧ c ≤ '9' then some (c.toNat - 48) else none

/-- Accumulating decimal reader over a character list. -/
def parseNatAux : List Char → Nat → Option Nat
  | [], acc => some acc
  | c :: rest, acc =>
    match digitVal c with
    | none => none
    | some d => parseNatAux rest (acc * 10 + d)

/-- Reads a nonempty all-digit character list as a natural number. -/
def parseNatCore (cs : List Char) : Option Nat :=
  if cs = [] then none else parseNatAux cs 0

/-- Semver numeric component: digits only, and no leading zero. -/
def parseNatSemver (cs : List Char) : Option Nat :=
  if cs.head? = some '0' ∧ cs.length ≠ 1 then none else parseNatCore cs

/-- Splits a character list at every occurrence of `c`, keeping empty pieces,
exactly like Rust's `str::split`. -/
def splitChar (c : Char) : List Char → List (List Char)
  | [] => [[]]
  | x :: xs =>
    if x = c then [] :: splitChar c xs
    else
      match splitChar c xs with
      | [] => [[x]]
      | y :: ys => (x :: y) :: ys

/-- Splits at the first occurrence of `c`: returns the part before it and,
when `c` occurs, the part after it. -/
def splitFirst (c : Char) : List Char → List Char × Option (List Char)
  | [] => ([], none)
  | x :: xs =>
    if x = c then ([], some xs)
    else
      let r := splitFirst c xs
      (x :: r.1, r.2)

/-- Unix-style absolute path test, as `Path::is_absolute`. -/
def isAbsolute (p : String) : Bool :=
  match p.data with
  | '/' :: _ => true
  | _ => false

/-- Model of `Path::join`: an absolute right operand replaces the base. -/
def pathJoin (base rel : String) : String :=
  if isAbsolute rel then rel else base ++ "/" ++ rel

/-- Scans the reverse of a file name for its extension: collects characters
up to the first `'.'`; a name whose only `'.'` is its first character (a
hidden file) has no extension, matching `Path::extension`. -/
def extRevAux : List Char → Option (List Char)
  | [] => none
  | c :: rest =>
    if c = '.' then (if rest.isEmpty then none else some [])
    else (extRevAux rest).map (fun l => c :: l)

/-- Final nonempty `/`-component of a path, as `Path::file_name` sees it. -/
def lastComponent (p : String) : List Char :=
  ((splitChar '/' p.data).filter (fun l => l ≠ [])).getLast?.getD []

/-- Model of `path.extension().unwrap_or_default()` from the source: the
extension of the final component, or `""` when there is none. -/
def extension (p : String) : String :=
  match extRevAux (lastComponent p).reverse with
  | none => ""
  | some r => String.mk r.reverse

/-- Semantic version, as the `semver` crate's `Version` stores it: three
numeric components plus raw pre-release and build-metadata identifier
strings (empty string meaning absent). -/
structure Version where
  major : Nat
  minor : Nat
  patch : Nat
  pre : String
  build : String
deriving DecidableEq

/-- Characters the `semver` grammar allows inside identifiers. -/
def identChar (c : Char) : Bool := c.isAlpha || c.isDigit || c = '-'

/-- An identifier consisting solely of digits. -/
def isNumericIdent (l : List Char) : Bool := l.all (fun c => c.isDigit)

/-- One dot-separated pre-release identifier: nonempty, alphanumeric or
hyphen, and a numeric identifier may not have a leading zero. -/
def validPreIdent (l : List Char) : Bool :=
  !l.isEmpty && l.all identChar &&
    (!isNumericIdent l || l.length == 1 || l.head? != some '0')

/-- One dot-separated build-metadata identifier: nonempty, alphanumeric or
hyphen. -/
def validBuildIdent (l : List Char) : Bool := !l.isEmpty && l.all identChar

/-- Validity of a whole pre-release string. -/
def validPre (l : List Char) : Bool := (splitChar '.' l).all validPreIdent

/-- Validity of a whole build-metadata string. -/
def validBuild (l : List Char) : Bool := (splitChar '.' l).all validBuildIdent

/-- Modelled from the spec: the `semver` crate (an external dependency, not
in this repository's sources) parses `major.minor.patch[-pre][+build]`,
rejecting missing components, leading zeros on numeric components and
malformed identifiers. -/
def parseVersionChars (cs : List Char) : Option Version :=
  let s1 := splitFirst '+' cs
  let s2 := splitFirst '-' s1.1
  match splitChar '.' s2.1 with
  | [ma, mi, pa] =>
    match parseNatSemver ma, parseNatSemver mi, parseNatSemver pa with
    | some major, some minor, some patch =>
      let preRes : Option String :=
        match s2.2 with
        | none => some ""
        | some l => if validPre l then some (String.mk l) else none
      let buildRes : Option String :=
        match s1.2 with
        | none => some ""
        | some l => if validBuild l then some (String.mk l) else none
      match preRes, buildRes with
      | some pre, some build => some ⟨major, minor, patch, pre, build⟩
      | _, _ => none
    | _, _, _ => none
  | _ => none

/-- Modelled from the spec: `str::parse::<semver::Version>`. -/
def parseVersion (s : String) : Option Version := parseVersionChars s.data

/-- Modelled from the spec: the `semver` crate's `Display` prints
`major.minor.patch`, then `-pre` when a pre-release is present, then
`+build` when build metadata is present. -/
def Version.displayChars (v : Version) : List Char :=
  natToString v.major ++ '.' :: natToString v.minor ++ '.' :: natToString v.patch
    ++ (if v.pre.data = [] then [] else '-' :: v.pre.data)
    ++ (if v.build.data = [] then [] else '+' :: v.build.data)

/-- The `version_parse::serialize` serializer of `hosted_plugins.rs`:
`ser.collect_str(ver)`, i.e. the version's `Display` output. -/
def version_parse_serialize (v : Version) : String := String.mk v.displayChars

/-- The `version_parse::deserialize` deserializer of `hosted_plugins.rs`:
parses the string, turning a parse failure into a custom serde error. -/
def version_parse_deserialize (s : String) : Except Unit Version :=
  match parseVersion s with
  | some v => .ok v
  | none => .error ()

/-- The `version_parse_opt::deserialize` deserializer of `hosted_plugins.rs`:
`Ok(super::version_parse::deserialize(de).ok())` — a failed parse becomes
`None`, never an error. -/
def version_parse_opt_deserialize (s : String) : Except Unit (Option Version) :=
  .ok (version_parse_deserialize s).toOption

/-- The type invariant of the `semver` crate's `Version`: the pre-release and
build-metadata fields, when present, are valid identifier strings (the crate
validates them on construction). -/
def ValidVersion (v : Version) : Prop :=
  (v.pre = "" ∨ validPre v.pre.data = true) ∧
    (v.build = "" ∨ validBuild v.build.data = true)

instance (v : Version) : Decidable (ValidVersion v) := by
  unfold ValidVersion; infer_instance

/-! ## Shared protocol vocabulary (`update_protocol` crate) -/

/-- Modelled from the spec: `update_protocol::InstallLocation` is a tagged
variant; `AbsolutePath` is the only variant with defined semantics, the
others are reserved (both source files match them with a `_` arm), collapsed
here into one `reserved` constructor. -/
inductive InstallLocation where
  | absolutePath (path : String)
  | reserved
deriving DecidableEq

/-- Modelled from the spec: `update_protocol::ResponseCode`, with one
constructor standing for the unspecified catch-all codes. -/
inductive ResponseCode where
  | noUpdate
  | update
  | invalidRequest
  | pluginNotFound
  | other
deriving DecidableEq

/-- Modelled from the spec: one entry of a response's `required_files`. -/
structure ArtifactEntry where
  install_location : InstallLocation
  download_index : Nat
deriving DecidableEq

/-- Modelled from the spec: the decoded `UpdateResponse`, restricted to the
fields the client code reads. -/
structure UpdateResponse where
  code : ResponseCode
  plugin_name : String
  required_files : List ArtifactEntry
deriving DecidableEq

/-! ## Server-side package registry (`hosted_plugins.rs`) -/

/-- Structure `PluginFile` of `hosted_plugins.rs`. -/
structure PluginFile where
  install_location : InstallLocation
  filename : String
deriving DecidableEq

/-- Structure `PluginFolder` of `hosted_plugins.rs`. -/
structure PluginFolder where
  install_root_location : InstallLocation
  root_name : String
deriving DecidableEq

/-- Structure `TomlMetadata` of `hosted_plugins.rs`. -/
structure TomlMetadata where
  name : Option String
  images : Option (List String)
  description : Option String
  changelog : Option String
deriving DecidableEq

/-- The fields of a `plugin.toml` document before the two custom serde field
deserializers (`version_parse`, `version_parse_opt`) run: the version fields
are still raw strings (`none` = field absent). -/
structure RawToml where
  version : String
  name : String
  beta : Option Bool
  files : List PluginFile
  folders : Option (List PluginFolder)
  skyline_version : Option String
  metadata : Option TomlMetadata
deriving DecidableEq

/-- Structure `PluginToml` of `hosted_plugins.rs`, after field deserialization. -/
structure PluginToml where
  version : Version
  name : String
  beta : Option Bool
  files : List PluginFile
  folders : Option (List PluginFolder)
  skyline_version : Option Version
  metadata : Option TomlMetadata
deriving DecidableEq

/-- Runs the serde field deserializers on a raw document: the `version` field
goes through `version_parse` (a parse failure fails the whole document), the
optional `skyline_version` field through `version_parse_opt` (a parse failure
becomes `none`; an absent field is `none` via `#[serde(default)]`). -/
def parseToml (raw : RawToml) : Except Unit PluginToml :=
  match version_parse_deserialize raw.version with
  | .error e => .error e
  | .ok version =>
    match (match raw.skyline_version with
           | none => Except.ok none
           | some s => version_parse_opt_deserialize s) with
    | .error e => .error e
    | .ok skyline_version =>
      .ok { version, name := raw.name, beta := raw.beta, files := raw.files,
            folders := raw.folders, skyline_version, metadata := raw.metadata }

/-- Structure `Metadata` of `hosted_plugins.rs` (resolved, bytes in memory). -/
structure Metadata where
  name : Option String := none
  images : Option (List (List Nat)) := none
  description : Option String := none
  changelog : Option String := none
deriving DecidableEq

/-- Structure `Plugin` of `hosted_plugins.rs` (a fully resolved package). -/
structure Plugin where
  name : String
  plugin_version : Version
  files : List (InstallLocation × List Nat)
  skyline_version : Version
  beta : Bool
  metadata : Metadata
deriving DecidableEq

/-- One entry yielded by `walkdir::WalkDir` during a folder walk. -/
structure WalkEntry where
  path : String
  isDir : Bool
deriving DecidableEq

/-- One entry of `fs::read_dir`, as `folder_to_plugin` consumes it. -/
structure DirEntry where
  path : String
  isDir : Bool
deriving DecidableEq

/-- The filesystem and external-parser operations `hosted_plugins.rs`
performs, as one abstract record: `read` is `fs::read`, `readStr` is
`fs::read_to_string`, `parseTomlStr` is `toml::from_str` up to (but not
including) the custom field deserializers, `walk` is the `walkdir` iteration
of a root path (`.error` entries model `walkdir` errors), `cwd` is
`std::env::current_dir()`. -/
structure ServerFs where
  read : String → Except Unit (List Nat)
  readStr : String → Except Unit String
  parseTomlStr : String → Except Unit RawToml
  walk : String → List (Except Unit WalkEntry)
  cwd : String

/-- How a package-definition resolution can fail: `err` is an `eyre::Report`
propagated with `?` (caught per definition by `get`), `panic` is an
`unwrap()` panic that unwinds out of the registry build. -/
inductive ResolveErr where
  | err
  | panic
deriving DecidableEq

/-- Function `to_file` of `hosted_plugins.rs`: resolve the filename against the
definition directory unless absolute, then read it fully. -/
def to_file (fs : ServerFs) (dir : String) (file : PluginFile) :
    Except ResolveErr (InstallLocation × List Nat) :=
  let path := pathJoin dir file.filename
  match fs.read path with
  | .error _ => .error .err
  | .ok bytes => .ok (file.install_location, bytes)

/-- The `files.into_iter().map(|file| to_file(file, &path)).collect()` step:
resolves every declared file, stopping at the first failure. -/
def mapFilesM (fs : ServerFs) (dir : String) :
    List PluginFile → Except ResolveErr (List (InstallLocation × List Nat))
  | [] => .ok []
  | f :: rest =>
    match to_file fs dir f with
    | .error e => .error e
    | .ok a =>
      match mapFilesM fs dir rest with
      | .error e => .error e
      | .ok l => .ok (a :: l)

/-- The anchor computation of `folder_to_plugin`: split the walked file's
path on `/`, find the first `plugins` component, and keep everything after
three more components.  `none` models the two panics on this line of the
source: `position(..).unwrap()` when no `plugins` component exists, and
`Vec::split_off` when the index exceeds the component count. -/
def anchoredRelPath (filePath : String) : Option String :=
  let comps := (splitChar '/' filePath.data).map String.mk
  match comps.findIdx? (fun c => c == "plugins") with
  | none => none
  | some i =>
    if i + 3 ≤ comps.length then
      some (String.intercalate "/" (comps.drop (i + 3)))
    else none

/-- The base path a folder's files are rewritten under: the wildcard arm of
the source maps any non-`AbsolutePath` variant to the literal path `ERR`. -/
def rewriteBase : InstallLocation → String
  | .absolutePath p => p
  | .reserved => "ERR"

/-- The inner walk loop of `folder_to_plugin`: directories are skipped, each
regular file is read and pushed with `files.insert(0, ..)` (so the walked
files end up in front, in reverse walk order), a `walkdir` error or an
unresolvable anchor panics, a read failure fails the definition. -/
def processWalk (fs : ServerFs) (loc : InstallLocation) :
    List (Except Unit WalkEntry) → List (InstallLocation × List Nat) →
    Except ResolveErr (List (InstallLocation × List Nat))
  | [], files => .ok files
  | .error _ :: _, _ => .error .panic
  | .ok e :: rest, files =>
    if e.isDir then processWalk fs loc rest files
    else
      match anchoredRelPath e.path with
      | none => .error .panic
      | some rel =>
        match fs.read e.path with
        | .error _ => .error .err
        | .ok bytes =>
          processWalk fs loc rest
            ((InstallLocation.absolutePath (pathJoin (rewriteBase loc) rel), bytes) :: files)

/-- The per-folder loop of `folder_to_plugin`: walk each folder's root (the
definition path joined under the current directory), then push the
zero-length sentinel `(install_root_location, vec![])` at the end. -/
def processFolders (fs : ServerFs) (defnPath : String) :
    List PluginFolder → List (InstallLocation × List Nat) →
    Except ResolveErr (List (InstallLocation × List Nat))
  | [], files => .ok files
  | folder :: rest, files =>
    let rootPath := pathJoin fs.cwd (pathJoin defnPath folder.root_name)
    match processWalk fs folder.install_root_location (fs.walk rootPath) files with
    | .error e => .error e
    | .ok files2 =>
      processFolders fs defnPath rest (files2 ++ [(folder.install_root_location, [])])

/-- The best-effort metadata step of `folder_to_plugin`: unreadable images
become empty byte vectors, an unreadable changelog becomes `none`. -/
def resolveMetadata (fs : ServerFs) : Option TomlMetadata → Metadata
  | none => {}
  | some m =>
    { name := m.name,
      images := m.images.map (List.map fun p => ((fs.read p).toOption.getD [])),
      description := m.description,
      changelog := (m.changelog.map fun p => (fs.readStr p).toOption).join }

/-- Function `folder_to_plugin` of `hosted_plugins.rs`: resolve one `read_dir` entry
into a servable package (or `none` for a non-directory entry). -/
def folder_to_plugin (fs : ServerFs) (entry : Except Unit DirEntry) :
    Except ResolveErr (Option Plugin) :=
  match entry with
  | .error _ => .error .err
  | .ok d =>
    if !d.isDir then .ok none
    else
      match fs.readStr (pathJoin d.path "plugin.toml") with
      | .error _ => .error .err
      | .ok content =>
        match fs.parseTomlStr content with
        | .error _ => .error .err
        | .ok raw =>
          match parseToml raw with
          | .error _ => .error .err
          | .ok toml =>
            match mapFilesM fs d.path toml.files with
            | .error e => .error e
            | .ok fileArts =>
              match processFolders fs d.path (toml.folders.getD []) fileArts with
              | .error e => .error e
              | .ok arts =>
                .ok (some
                  { name := toml.name,
                    plugin_version := toml.version,
                    files := arts,
                    skyline_version := toml.skyline_version.getD ⟨0, 0, 0, "", ""⟩,
                    beta := toml.beta.getD false,
                    metadata := resolveMetadata fs toml.metadata })

/-- The `filter_map` of `get`: an `eyre` error is printed and skipped, a
panic unwinds the whole build, successes are collected in order. -/
def getAux (fs : ServerFs) : List (Except Unit DirEntry) → Except ResolveErr (List Plugin)
  | [] => .ok []
  | e :: rest =>
    match folder_to_plugin fs e with
    | .error .panic => .error .panic
    | .error .err => getAux fs rest
    | .ok none => getAux fs rest
    | .ok (some p) =>
      match getAux fs rest with
      | .error e2 => .error e2
      | .ok l => .ok (p :: l)

/-- Function `get` of `hosted_plugins.rs`: `fs::read_dir("plugins")?` (its failure
aborts the build as an error), then per-entry resolution. -/
def get (fs : ServerFs) (entries : Except Unit (List (Except Unit DirEntry))) :
    Except ResolveErr (List Plugin) :=
  match entries with
  | .error _ => .error .err
  | .ok es => getAux fs es

/-! ## Client-side install state machine (`skyline-update/src/lib.rs`) -/

/-- The client's view of the sd-card filesystem: which paths currently exist
as regular files and which as directories. -/
structure ClientState where
  files : List String
  dirs : List String
deriving DecidableEq

/-- The well-known path of the Recovery Marker, `sd:/installing.tmpfile`. -/
def markerPath : String := "sd:/installing.tmpfile"

/-- Model of `Path::exists`: the path exists as a file or as a directory. -/
def pathExists (st : ClientState) (p : String) : Bool :=
  st.files.contains p || st.dirs.contains p

/-- Model of `Path::is_dir`. -/
def pathIsDir (st : ClientState) (p : String) : Bool :=
  st.dirs.contains p

/-- Whether `q` is `root` itself or lies strictly inside the directory
`root`. -/
def isUnder (root q : String) : Bool :=
  q == root || (root ++ "/").data.isPrefixOf q.data

/-- Model of `std::fs::remove_dir_all`: deletes the directory and everything below
it (files and subdirectories). -/
def removeDirAll (st : ClientState) (p : String) : ClientState :=
  { files := st.files.filter (fun q => !isUnder p q),
    dirs := st.dirs.filter (fun q => !isUnder p q) }

/-- Model of `std::fs::File::create`: the path now exists as a regular file. -/
def createFile (st : ClientState) (p : String) : ClientState :=
  { st with files := p :: st.files }

/-- Model of `std::fs::remove_file`: removes a regular file (a directory at that path
is untouched; removing an absent file changes nothing). -/
def removeFile (st : ClientState) (p : String) : ClientState :=
  { st with files := st.files.filter (fun q => q ≠ p) }

/-- One step of the pre-download deletion loop of `update`: an artifact
whose `AbsolutePath` location currently is an existing directory is removed
recursively; every other artifact leaves the state alone. -/
def predeleteOne (st : ClientState) (a : ArtifactEntry) : ClientState :=
  match a.install_location with
  | .absolutePath p =>
    if pathIsDir st p && pathExists st p then removeDirAll st p else st
  | .reserved => st

/-- The pre-download deletion loop of `update`, over the artifacts in
response order. -/
def predeleteList (arts : List ArtifactEntry) (st : ClientState) : ClientState :=
  arts.foldl predeleteOne st

/-- Lines 67–78 of `lib.rs`: the whole deletion loop runs only when the
Recovery Marker does not exist. -/
def preDeleteStep (resp : UpdateResponse) (st : ClientState) : ClientState :=
  if pathExists st markerPath then st else predeleteList resp.required_files st

/-- The skip guard of line 87 of `lib.rs`, transcribed:
`path.exists() && Path::new("sd:/installing.tmpfile").exists() &&
path.extension().unwrap_or_default() != "nro"`. -/
def skipGuard (st : ClientState) (p : String) : Bool :=
  pathExists st p && pathExists st markerPath && extension p != "nro"

/-- The installer collaborator (`Installer` trait of `lib.rs`).  Its
`install_file` may change the client filesystem (the on-switch implementation
writes the artifact to disk), so the new state is returned explicitly; a
`.error` result is the trait's `Err(())`. -/
structure InstallerM where
  should_update : UpdateResponse → Bool
  install_file : String → List Nat → ClientState → Except Unit ClientState

/-- The `DefaultInstaller` as compiled off-switch: accept every update and
install by logging only, leaving the filesystem unchanged. -/
def DefaultInstaller : InstallerM where
  should_update := fun _ => true
  install_file := fun _ _ st => .ok st

/-- Outcome of one data-channel connection attempt
(`TcpStream::connect_timeout` on port 45001 followed by `read_to_end`):
a successful connection carries the read result; a failed connection is
either the distinguished descriptor-exhaustion failure (an error whose text
contains `os error 24`) or any other error. -/
inductive ConnectResult where
  | ok (readResult : Except Unit (List Nat))
  | errExhaustion
  | errOther

/-- Observable outcome of one run of `update`: the returned boolean, the
final filesystem, how many times `RestartProgramNoArgs` ran, the download
indices for which a data connection was attempted (in order), the download
indices skipped by the recovery guard (in order), and the destination paths
handed successfully to the installer (in order). -/
structure RunTrace where
  success : Bool
  state : ClientState
  restarts : Nat
  attempted : List Nat
  skipped : List Nat
  installed : List String
deriving DecidableEq

/-- The per-artifact download loop of `update` (lines 80–122 of `lib.rs`),
iterating the remaining artifacts with the current filesystem and the count
of data-channel connection attempts made so far.  On exhaustion of the list
the marker file is removed and the run succeeds; a non-`AbsolutePath`
location returns `false`; a skipped artifact is neither fetched nor
installed; a connection failure returns `false`, after creating the marker
and restarting once when it is the descriptor-exhaustion failure. -/
def updateFrom (inst : InstallerM) (net : Nat → ConnectResult) :
    List ArtifactEntry → ClientState → Nat → RunTrace
  | [], st, _ =>
    { success := true, state := removeFile st markerPath, restarts := 0,
      attempted := [], skipped := [], installed := [] }
  | a :: rest, st, k =>
    match a.install_location with
    | .reserved =>
      { success := false, state := st, restarts := 0,
        attempted := [], skipped := [], installed := [] }
    | .absolutePath p =>
      if skipGuard st p then
        let t := updateFrom inst net rest st k
        { t with skipped := a.download_index :: t.skipped }
      else
        match net k with
        | .errExhaustion =>
          { success := false, state := createFile st markerPath, restarts := 1,
            attempted := [a.download_index], skipped := [], installed := [] }
        | .errOther =>
          { success := false, state := st, restarts := 0,
            attempted := [a.download_index], skipped := [], installed := [] }
        | .ok (.error _) =>
          { success := false, state := st, restarts := 0,
            attempted := [a.download_index], skipped := [], installed := [] }
        | .ok (.ok bytes) =>
          match inst.install_file p bytes st with
          | .error _ =>
            { success := false, state := st, restarts := 0,
              attempted := [a.download_index], skipped := [], installed := [] }
          | .ok st2 =>
            let t := updateFrom inst net rest st2 (k + 1)
            { t with attempted := a.download_index :: t.attempted,
                     installed := p :: t.installed }

/-- Function `update` of `lib.rs`: the pre-download deletion step, then the
per-artifact download loop. -/
def update (inst : InstallerM) (net : Nat → ConnectResult)
    (resp : UpdateResponse) (st : ClientState) : RunTrace :=
  updateFrom inst net resp.required_files (preDeleteStep resp st) 0

/-- Outcome of the control-channel exchange of `custom_check_update`:
the connect may fail; on a connection, `serde_json::to_string` of the
request may fail (encode), and the response string may fail to decode
(`decoded = none`). -/
inductive ControlResult where
  | connectErr
  | connected (encodeOk : Bool) (decoded : Option UpdateResponse)
deriving DecidableEq

/-- Observable outcome of `custom_check_update`: the returned boolean plus
the run's fetch/install effects (empty when `update` never ran). -/
structure CheckTrace where
  result : Bool
  attempted : List Nat
  installed : List String
  state : ClientState
deriving DecidableEq

/-- Function `custom_check_update` of `lib.rs`: every control-channel failure and
every response code other than `Update` returns `false` without fetching or
installing anything; on `Update` the installer is consulted and, when it
agrees, `update` runs and its boolean is returned. -/
def custom_check_update (inst : InstallerM) (net : Nat → ConnectResult)
    (ctrl : ControlResult) (st : ClientState) : CheckTrace :=
  match ctrl with
  | .connectErr => ⟨false, [], [], st⟩
  | .connected false _ => ⟨false, [], [], st⟩
  | .connected true none => ⟨false, [], [], st⟩
  | .connected true (some resp) =>
    match resp.code with
    | .noUpdate => ⟨false, [], [], st⟩
    | .update =>
      if inst.should_update resp then
        let t := update inst net resp st
        ⟨t.success, t.attempted, t.installed, t.state⟩
      else ⟨false, [], [], st⟩
    | .invalidRequest => ⟨false, [], [], st⟩
    | .pluginNotFound => ⟨false, [], [], st⟩
    | .other => ⟨false, [], [], st⟩

/-- Function `check_update` of `lib.rs`: `custom_check_update` with the default
installer. -/
def check_update (net : Nat → ConnectResult) (ctrl : ControlResult)
    (st : ClientState) : CheckTrace :=
  custom_check_update DefaultInstaller net ctrl st

/-! ## Concrete server fixtures used by witnesses and counterexamples -/

/-- Manifest of the well-formed definition `p2`: one declared file and one
folder with an `AbsolutePath` install root. -/
def rawP2 : RawToml :=
  { version := "1.0.0", name := "p2", beta := none,
    files := [⟨.absolutePath "sd:/plugin.nro", "file.nro"⟩],
    folders := some [⟨.absolutePath "sd:/data", "r"⟩],
    skyline_version := none, metadata := none }

/-- Manifest of `p1`: a folder whose install root is a reserved variant. -/
def rawP1 : RawToml :=
  { version := "1.0.0", name := "p1", beta := none, files := [],
    folders := some [⟨.reserved, "r"⟩],
    skyline_version := none, metadata := none }

/-- Manifest of `g`: trivial, no folders. -/
def rawG : RawToml :=
  { version := "1.0.0", name := "g", beta := none, files := [],
    folders := none, skyline_version := none, metadata := none }

/-- Manifest of `b`: a folder with an absolute `root_name`, whose walked
paths therefore contain no `plugins` component. -/
def rawB : RawToml :=
  { version := "1.0.0", name := "b", beta := none, files := [],
    folders := some [⟨.absolutePath "sd:/d", "/ext/r"⟩],
    skyline_version := none, metadata := none }

/-- Manifest of `s`: a present but unparseable `skyline_version`. -/
def rawS : RawToml :=
  { version := "1.0.0", name := "s", beta := none, files := [],
    folders := none, skyline_version := some "garbage", metadata := none }

/-- A concrete server filesystem hosting the five definitions above (plus
`plugins/m`, whose manifest is unreadable). -/
def sFs : ServerFs :=
  { cwd := "cwd",
    readStr := fun p =>
      if p = "plugins/p2/plugin.toml" then .ok "T2"
      else if p = "plugins/p1/plugin.toml" then .ok "T1"
      else if p = "plugins/g/plugin.toml" then .ok "TG"
      else if p = "plugins/b/plugin.toml" then .ok "TB"
      else if p = "plugins/s/plugin.toml" then .ok "TS"
      else .error (),
    parseTomlStr := fun s =>
      if s = "T2" then .ok rawP2
      else if s = "T1" then .ok rawP1
      else if s = "TG" then .ok rawG
      else if s = "TB" then .ok rawB
      else if s = "TS" then .ok rawS
      else .error (),
    read := fun p =>
      if p = "plugins/p2/file.nro" then .ok [7]
      else if p = "cwd/plugins/p2/r/a/b.txt" then .ok [1, 2]
      else if p = "cwd/plugins/p1/r/a.txt" then .ok [9]
      else .error (),
    walk := fun p =>
      if p = "cwd/plugins/p2/r" then
        [.ok ⟨"cwd/plugins/p2/r", true⟩, .ok ⟨"cwd/plugins/p2/r/a/b.txt", false⟩]
      else if p = "cwd/plugins/p1/r" then [.ok ⟨"cwd/plugins/p1/r/a.txt", false⟩]
      else if p = "/ext/r" then [.ok ⟨"/ext/r/a.txt", false⟩]
      else [] }

/-- Registry entry for `p2`. -/
def entryP2 : Except Unit DirEntry := .ok ⟨"plugins/p2", true⟩

/-- Registry entry for `p1`. -/
def entryP1 : Except Unit DirEntry := .ok ⟨"plugins/p1", true⟩

/-- Registry entry for `g`. -/
def entryG : Except Unit DirEntry := .ok ⟨"plugins/g", true⟩

/-- Registry entry for `b`. -/
def entryB : Except Unit DirEntry := .ok ⟨"plugins/b", true⟩

/-- Registry entry for `m` (manifest unreadable). -/
def entryM : Except Unit DirEntry := .ok ⟨"plugins/m", true⟩

/-- Registry entry for `s`. -/
def entryS : Except Unit DirEntry := .ok ⟨"plugins/s", true⟩

/-- The resolved package for `g`. -/
def pluginG : Plugin :=
  { name := "g", plugin_version := ⟨1, 0, 0, "", ""⟩, files := [],
    skyline_version := ⟨0, 0, 0, "", ""⟩, beta := false, metadata := {} }

/-- The resolved package for `p1`. -/
def pluginP1 : Plugin :=
  { name := "p1", plugin_version := ⟨1, 0, 0, "", ""⟩,
    files := [(.absolutePath "ERR/a.txt", [9]), (.reserved, [])],
    skyline_version := ⟨0, 0, 0, "", ""⟩, beta := false, metadata := {} }

/-- Concrete marker-free state with a populated directory for the C2
witness. -/
def cStateDirs : ClientState :=
  { files := ["sd:/d/old.bin"], dirs := ["sd:/d", "sd:/d/sub"] }

/-- Concrete `Update` response whose artifact points at that directory. -/
def cRespDir : UpdateResponse :=
  { code := .update, plugin_name := "p",
    required_files := [⟨.absolutePath "sd:/d", 0⟩] }

/-- Claim C3 witness: a concrete state in which the marker is present and an
existing non-`nro` destination is skipped. -/
def cState : ClientState := { files := ["sd:/a.bin", markerPath], dirs := [] }

/-- Concrete artifact used by the client-side witnesses. -/
def cArtifact : ArtifactEntry := ⟨.absolutePath "sd:/a.bin", 4⟩

/-- Concrete always-other-error network. -/
def cNetOther : Nat → ConnectResult := fun _ => .errOther

/-- Concrete always-exhausted network. -/
def cNetExh : Nat → ConnectResult := fun _ => .errExhaustion

/-- Concrete marker-free state for the exhaustion witness. -/
def cState2 : ClientState := { files := [], dirs := [] }

/-- An installer whose `install_file` leaves the Recovery Marker path alone
(both implementations in the source only write the artifact's own
destination). -/
def PreservesMarker (inst : InstallerM) : Prop :=
  ∀ p b st st2, inst.install_file p b st = .ok st2 →
    (markerPath ∈ st2.files ↔ markerPath ∈ st.files) ∧
    (markerPath ∈ st2.dirs ↔ markerPath ∈ st.dirs)

/-- Concrete `NoUpdate` response for the C6 witness. -/
def cRespNoUpd : UpdateResponse :=
  { code := .noUpdate, plugin_name := "p", required_files := [] }

/-- The artifact one walk entry contributes, when it contributes one: a
non-directory entry whose anchor resolves and whose bytes read, placed at
the anchored relative path rewritten under the folder's rewrite base. -/
def walkArtifact (fs : ServerFs) (loc : InstallLocation)
    (we : Except Unit WalkEntry) : Option (InstallLocation × List Nat) :=
  match we with
  | .error _ => none
  | .ok e =>
    if e.isDir then none
    else
      match anchoredRelPath e.path, fs.read e.path with
      | some rel, .ok bytes =>
        some (.absolutePath (pathJoin (rewriteBase loc) rel), bytes)
      | some _, .error _ => none
      | none, _ => none

/-- Written to the spec's words, for comparison with `processFolders`: the
artifacts one folder contributes are its walked regular files (in reverse
walk order, since each is inserted at the front). -/
def specFolderArtifacts (fs : ServerFs) (defnPath : String) (g : PluginFolder) :
    List (InstallLocation × List Nat) :=
  ((fs.walk (pathJoin fs.cwd (pathJoin defnPath g.root_name))).filterMap
    (walkArtifact fs g.install_root_location)).reverse

/-- The claim's phrase "the relative path rewritten under
`install_root_location`": the artifact's location is the folder's own
absolute install root joined with the anchored relative path. -/
def rewrittenUnder (loc : InstallLocation) (rel : String)
    (art : InstallLocation) : Prop :=
  ∃ base, loc = .absolutePath base ∧ art = .absolutePath (pathJoin base rel)

/-- The parsed manifest of `p2`. -/
def tomlP2 : PluginToml :=
  { version := ⟨1, 0, 0, "", ""⟩, name := "p2", beta := none,
    files := [⟨.absolutePath "sd:/plugin.nro", "file.nro"⟩],
    folders := some [⟨.absolutePath "sd:/data", "r"⟩],
    skyline_version := none, metadata := none }

/-- The resolved artifact list of `p2`: the walked folder file in front,
then the declared file, then the folder's sentinel. -/
def artsP2 : List (InstallLocation × List Nat) :=
  [(.absolutePath "sd:/data/a/b.txt", [1, 2]),
   (.absolutePath "sd:/plugin.nro", [7]),
   (.absolutePath "sd:/data", [])]

/-- The parsed manifest of `s`: the garbage `skyline_version` became
`none`. -/
def tomlS : PluginToml :=
  { version := ⟨1, 0, 0, "", ""⟩, name := "s", beta := none, files := [],
    folders := none, skyline_version := none, metadata := none }

/-- The resolved package for `s`. -/
def pluginS : Plugin :=
  { name := "s", plugin_version := ⟨1, 0, 0, "", ""⟩, files := [],
    skyline_version := ⟨0, 0, 0, "", ""⟩, beta := false, metadata := {} }

/-! ## Helper lemmas -/

/-! ### Decimal printing and reading lemmas -/

/-- Printed digit characters are digits. -/
theorem digitChar_isDigit (d : Nat) : (digitChar d).isDigit = true := by
  unfold digitChar
  split <;> decide

/-- Reading a printed digit gives the digit back. -/
theorem digitVal_digitChar (d : Nat) (h : d < 10) :
    digitVal (digitChar d) = some d := by
  interval_cases d <;> decide

/-- The accumulating reader distributes over append. -/
theorem parseNatAux_append : ∀ (xs ys : List Char) (acc : Nat),
    parseNatAux (xs ++ ys) acc =
      match parseNatAux xs acc with
      | none => none
      | some m => parseNatAux ys m
  | [], ys, acc => rfl
  | c :: xs, ys, acc => by
    cases hc : digitVal c with
    | none => simp [parseNatAux, hc]
    | some d =>
      simp only [List.cons_append, parseNatAux, hc]
      exact parseNatAux_append xs ys (acc * 10 + d)

/-- Reading back the printed digits of `n` appends `n` to the accumulator's
decimal shift. -/
theorem natToDigitsAux_parse : ∀ (fuel n acc : Nat), n < fuel →
    parseNatAux (natToDigitsAux fuel n) acc =
      some (acc * 10 ^ (natToDigitsAux fuel n).length + n) := by
  intro fuel
  induction fuel with
  | zero =>
    intro n acc h
    exact absurd h (Nat.not_lt_zero n)
  | succ fuel ih =>
    intro n acc h
    by_cases h10 : n < 10
    · rw [show natToDigitsAux (fuel + 1) n = [digitChar n] by
        simp [natToDigitsAux, h10]]
      simp [parseNatAux, digitVal_digitChar n h10]
    · rw [show natToDigitsAux (fuel + 1) n
            = natToDigitsAux fuel (n / 10) ++ [digitChar (n % 10)] by
        simp [natToDigitsAux, h10]]
      rw [parseNatAux_append]
      have hlt : n / 10 < fuel :=
        lt_of_lt_of_le (Nat.div_lt_self (by omega) (by norm_num)) (by omega)
      rw [ih (n / 10) acc hlt]
      have hm : digitVal (digitChar (n % 10)) = some (n % 10) :=
        digitVal_digitChar _ (Nat.mod_lt n (by norm_num))
      simp only [parseNatAux, hm, List.length_append, List.length_singleton]
      rw [pow_succ, ← mul_assoc]
      have hdm : 10 * (n / 10) + n % 10 = n := Nat.div_add_mod n 10
      generalize acc * 10 ^ (natToDigitsAux fuel (n / 10)).length = X
      simp only [Option.some.injEq]
      omega

/-- The printer never outputs the empty list. -/
theorem natToDigitsAux_ne_nil (fuel n : Nat) :
    natToDigitsAux (fuel + 1) n ≠ [] := by
  by_cases h10 : n < 10 <;> simp [natToDigitsAux, h10]

/-- The leading printed digit of a positive number is not `'0'`. -/
theorem natToDigitsAux_head_ne_zero : ∀ (fuel n : Nat), n < fuel → 1 ≤ n →
    ∀ c, (natToDigitsAux fuel n).head? = some c → c ≠ '0' := by
  intro fuel
  induction fuel with
  | zero =>
    intro n h
    exact absurd h (Nat.not_lt_zero n)
  | succ fuel ih =>
    intro n h h1 c hc
    by_cases h10 : n < 10
    · rw [show natToDigitsAux (fuel + 1) n = [digitChar n] by
        simp [natToDigitsAux, h10]] at hc
      simp only [List.head?_cons, Option.some.injEq] at hc
      subst hc
      interval_cases n <;> decide
    · rw [show natToDigitsAux (fuel + 1) n
            = natToDigitsAux fuel (n / 10) ++ [digitChar (n % 10)] by
        simp [natToDigitsAux, h10]] at hc
      have hfuel : 0 < fuel := by omega
      obtain ⟨fuel2, rfl⟩ := Nat.exists_eq_add_of_lt hfuel
      rw [List.head?_append] at hc
      rcases ho : (natToDigitsAux (0 + fuel2 + 1) (n / 10)).head? with _ | c2
      · exact absurd (List.head?_eq_none_iff.mp ho)
          (natToDigitsAux_ne_nil (0 + fuel2) (n / 10))
      · rw [ho] at hc
        simp only [Option.or_some, Option.some.injEq] at hc
        subst hc
        exact ih (n / 10) (by omega) (by omega) c2 ho

/-- Every printed character is a digit. -/
theorem mem_natToDigitsAux_isDigit : ∀ (fuel n : Nat) (c : Char),
    c ∈ natToDigitsAux fuel n → c.isDigit = true := by
  intro fuel
  induction fuel with
  | zero =>
    intro n c hc
    simp [natToDigitsAux] at hc
  | succ fuel ih =>
    intro n c hc
    by_cases h10 : n < 10
    · rw [show natToDigitsAux (fuel + 1) n = [digitChar n] by
        simp [natToDigitsAux, h10]] at hc
      rcases List.mem_singleton.mp hc with rfl
      exact digitChar_isDigit n
    · rw [show natToDigitsAux (fuel + 1) n
            = natToDigitsAux fuel (n / 10) ++ [digitChar (n % 10)] by
        simp [natToDigitsAux, h10]] at hc
      rcases List.mem_append.mp hc with h2 | h2
      · exact ih (n / 10) c h2
      · rcases List.mem_singleton.mp h2 with rfl
        exact digitChar_isDigit _

/-- Non-digit characters do not occur in printed numbers. -/
theorem not_mem_natToString {c : Char} (hc : c.isDigit = false) (n : Nat) :
    c ∉ natToString n := by
  intro h
  rw [mem_natToDigitsAux_isDigit (n + 1) n c h] at hc
  cases hc

/-- The semver numeric reader inverts the printer. -/
theorem parseNatSemver_natToString (n : Nat) :
    parseNatSemver (natToString n) = some n := by
  rcases Nat.eq_zero_or_pos n with rfl | hpos
  · decide
  · have hne : natToString n ≠ [] := natToDigitsAux_ne_nil n n
    have hhead : (natToString n).head? ≠ some '0' := by
      intro hc
      exact natToDigitsAux_head_ne_zero (n + 1) n (Nat.lt_succ_self n) hpos '0' hc rfl
    unfold parseNatSemver
    rw [if_neg (by
      intro hcon
      exact hhead hcon.1)]
    unfold parseNatCore
    rw [if_neg hne]
    unfold natToString
    rw [natToDigitsAux_parse (n + 1) n 0 (Nat.lt_succ_self n)]
    simp

/-! ### Splitting lemmas -/

/-- Splitting at an absent character returns the whole list. -/
theorem splitFirst_not_mem {c : Char} : ∀ {xs : List Char}, c ∉ xs →
    splitFirst c xs = (xs, none)
  | [], _ => rfl
  | x :: xs, h => by
    have hx : ¬(x = c) := fun he => h (he ▸ List.mem_cons_self x xs)
    have ht := splitFirst_not_mem (fun hm => h (List.mem_cons_of_mem x hm))
    simp [splitFirst, hx, ht]

/-- Splitting at the first occurrence of the character. -/
theorem splitFirst_append {c : Char} : ∀ {xs : List Char} (ys : List Char),
    c ∉ xs → splitFirst c (xs ++ c :: ys) = (xs, some ys)
  | [], ys, _ => by simp [splitFirst]
  | x :: xs, ys, h => by
    have hx : ¬(x = c) := fun he => h (he ▸ List.mem_cons_self x xs)
    have ht := splitFirst_append ys
      (fun hm => h (List.mem_cons_of_mem x hm) : c ∉ xs)
    simp [splitFirst, hx, ht]

/-- The function `splitChar` never returns the empty list of pieces. -/
theorem splitChar_ne_nil (c : Char) : ∀ (xs : List Char), splitChar c xs ≠ []
  | [] => by simp [splitChar]
  | x :: xs => by
    by_cases hx : x = c
    · simp [splitChar, hx]
    · rcases hs : splitChar c xs with _ | ⟨y, ys⟩
      · exact absurd hs (splitChar_ne_nil c xs)
      · simp [splitChar, hx, hs]

/-- Splitting a list without the separator yields one piece. -/
theorem splitChar_not_mem {c : Char} : ∀ {xs : List Char}, c ∉ xs →
    splitChar c xs = [xs]
  | [], _ => rfl
  | x :: xs, h => by
    have hx : ¬(x = c) := fun he => h (he ▸ List.mem_cons_self x xs)
    have ht := splitChar_not_mem (fun hm => h (List.mem_cons_of_mem x hm))
    simp [splitChar, hx, ht]

/-- Splitting peels off the first separator-free piece. -/
theorem splitChar_append {c : Char} : ∀ {xs : List Char} (ys : List Char),
    c ∉ xs → splitChar c (xs ++ c :: ys) = xs :: splitChar c ys
  | [], ys, _ => by simp [splitChar]
  | x :: xs, ys, h => by
    have hx : ¬(x = c) := fun he => h (he ▸ List.mem_cons_self x xs)
    have ht := splitChar_append ys
      (fun hm => h (List.mem_cons_of_mem x hm) : c ∉ xs)
    rcases hs : splitChar c (xs ++ c :: ys) with _ | ⟨y, ys2⟩
    · exact absurd hs (splitChar_ne_nil c _)
    · rw [ht] at hs
      injection hs with hs1 hs2
      simp [splitChar, hx, ht]

/-- A member of the split list is the separator or sits in some piece. -/
theorem mem_splitChar {c c2 : Char} : ∀ {xs : List Char}, c2 ∈ xs →
    c2 = c ∨ ∃ piece ∈ splitChar c xs, c2 ∈ piece := by
  intro xs
  induction xs with
  | nil =>
    intro h
    cases h
  | cons x xs ih =>
    intro h
    by_cases hx : x = c
    · rcases List.mem_cons.mp h with rfl | h2
      · exact Or.inl hx
      · rcases ih h2 with h3 | ⟨piece, hp, hcp⟩
        · exact Or.inl h3
        · refine Or.inr ⟨piece, ?_, hcp⟩
          simp [splitChar, hx]
          exact Or.inr hp
    · rcases hs : splitChar c xs with _ | ⟨y, ys⟩
      · exact absurd hs (splitChar_ne_nil c xs)
      · have hsplit : splitChar c (x :: xs) = (x :: y) :: ys := by
          simp [splitChar, hx, hs]
        rcases List.mem_cons.mp h with rfl | h2
        · exact Or.inr ⟨c2 :: y, by simp [hsplit], List.mem_cons_self _ _⟩
        · rcases ih h2 with h3 | ⟨piece, hp, hcp⟩
          · exact Or.inl h3
          · rw [hs] at hp
            rcases List.mem_cons.mp hp with rfl | hp2
            · exact Or.inr ⟨x :: piece, by simp [hsplit],
                List.mem_cons_of_mem x hcp⟩
            · exact Or.inr ⟨piece, by simp [hsplit, hp2], hcp⟩

/-- A valid pre-release identifier consists of identifier characters. -/
theorem validPreIdent_chars {piece : List Char}
    (h : validPreIdent piece = true) : piece.all identChar = true := by
  unfold validPreIdent at h
  rcases hb : piece.all identChar with _ | _
  · rw [hb] at h
    simp at h
  · rfl

/-- A valid build identifier consists of identifier characters. -/
theorem validBuildIdent_chars {piece : List Char}
    (h : validBuildIdent piece = true) : piece.all identChar = true := by
  unfold validBuildIdent at h
  rcases hb : piece.all identChar with _ | _
  · rw [hb] at h
    simp at h
  · rfl

/-- Every character of a valid pre-release string is a dot or an identifier
character. -/
theorem validPre_chars {l : List Char} (h : validPre l = true) :
    ∀ c2 ∈ l, c2 = '.' ∨ identChar c2 = true := by
  intro c2 hc
  rcases mem_splitChar (c := '.') hc with h2 | ⟨piece, hp, hcp⟩
  · exact Or.inl h2
  · refine Or.inr ?_
    have hpv := List.all_eq_true.mp h piece hp
    exact List.all_eq_true.mp (validPreIdent_chars hpv) c2 hcp

/-- Every character of a valid build-metadata string is a dot or an
identifier character. -/
theorem validBuild_chars {l : List Char} (h : validBuild l = true) :
    ∀ c2 ∈ l, c2 = '.' ∨ identChar c2 = true := by
  intro c2 hc
  rcases mem_splitChar (c := '.') hc with h2 | ⟨piece, hp, hcp⟩
  · exact Or.inl h2
  · refine Or.inr ?_
    have hpv := List.all_eq_true.mp h piece hp
    exact List.all_eq_true.mp (validBuildIdent_chars hpv) c2 hcp

/-- Identifier characters are never `'+'`. -/
theorem identChar_ne_plus {c : Char} (h : identChar c = true) : c ≠ '+' := by
  intro hc
  subst hc
  cases h

/-- Two strings with the same characters are equal. -/
theorem string_ext {s t : String} (h : s.data = t.data) : s = t :=
  congrArg String.mk h

/-- A string with no characters is the empty string. -/
theorem string_eq_empty {s : String} (h : s.data = []) : s = "" :=
  string_ext h

/-- Rebuilding a string from its characters is the identity. -/
theorem mk_data (s : String) : String.mk s.data = s := by
  cases s
  rfl

/-- The character `'+'` cannot occur in a valid pre-release string. -/
theorem plus_not_mem_validPre {l : List Char} (h : validPre l = true) :
    '+' ∉ l := by
  intro hm
  rcases validPre_chars h '+' hm with h2 | h2
  · exact absurd h2 (by decide)
  · exact absurd h2 (by decide)

/-- No non-digit, non-dot character occurs in the printed numeric core. -/
theorem not_mem_core {c : Char} (hc : c.isDigit = false) (hdot : c ≠ '.')
    (M m p : Nat) :
    c ∉ natToString M ++ '.' :: natToString m ++ '.' :: natToString p := by
  intro h
  rcases List.mem_append.mp h with h1 | h1
  · rcases List.mem_append.mp h1 with h2 | h2
    · exact not_mem_natToString hc M h2
    · rcases List.mem_cons.mp h2 with h3 | h3
      · exact hdot h3
      · exact not_mem_natToString hc m h3
  · rcases List.mem_cons.mp h1 with h3 | h3
    · exact hdot h3
    · exact not_mem_natToString hc p h3

/-- Splitting the printed core at dots recovers the three components. -/
theorem splitChar_core (M m p : Nat) :
    splitChar '.' (natToString M ++ '.' :: natToString m ++ '.' :: natToString p)
      = [natToString M, natToString m, natToString p] := by
  rw [List.append_assoc, List.cons_append]
  rw [splitChar_append _ (not_mem_natToString (by decide) M)]
  rw [splitChar_append _ (not_mem_natToString (by decide) m)]
  rw [splitChar_not_mem (not_mem_natToString (by decide) p)]

/-- Validity of the pre-release string in the nonempty case. -/
theorem validPre_of_valid {pre : String} (hv : pre = "" ∨ validPre pre.data = true)
    (hne : pre.data ≠ []) : validPre pre.data = true := by
  rcases hv with h0 | h0
  · exact absurd (by rw [h0]) hne
  · exact h0

/-- Validity of the build string in the nonempty case. -/
theorem validBuild_of_valid {build : String}
    (hv : build = "" ∨ validBuild build.data = true)
    (hne : build.data ≠ []) : validBuild build.data = true := by
  rcases hv with h0 | h0
  · exact absurd (by rw [h0]) hne
  · exact h0

/-- The character `'+'` does not occur before the build-metadata separator. -/
theorem plus_not_mem_corePre {pre : String} (M m p : Nat)
    (hvp : validPre pre.data = true) :
    '+' ∉ (natToString M ++ '.' :: natToString m ++ '.' :: natToString p)
      ++ '-' :: pre.data := by
  intro hm
  rcases List.mem_append.mp hm with h1 | h1
  · exact not_mem_core (by decide) (by decide) M m p h1
  · rcases List.mem_cons.mp h1 with h2 | h2
    · exact absurd h2 (by decide)
    · exact plus_not_mem_validPre hvp h2


/-- The loop can trigger at most one restart: the only branch that restarts
returns immediately. -/
theorem updateFrom_restarts_le_one (inst : InstallerM) (net : Nat → ConnectResult) :
    ∀ (l : List ArtifactEntry) (st : ClientState) (k : Nat),
      (updateFrom inst net l st k).restarts ≤ 1 := by
  intro l
  induction l with
  | nil => intro st k; simp [updateFrom]
  | cons a rest ih =>
    intro st k
    simp only [updateFrom]
    cases a.install_location with
    | reserved => simp
    | absolutePath p =>
      simp only
      by_cases h : skipGuard st p = true
      · simp only [h, if_pos]
        simpa using ih st k
      · rw [if_neg h]
        cases hnet : net k with
        | errExhaustion => simp
        | errOther => simp
        | ok r =>
          cases r with
          | error e => simp
          | ok bytes =>
            cases hins : inst.install_file p bytes st with
            | error e => simp [hins]
            | ok st2 => simpa [hins] using ih st2 (k + 1)

/-- Existence, in membership form. -/
theorem pathExists_iff (st : ClientState) (q : String) :
    pathExists st q = true ↔ q ∈ st.files ∨ q ∈ st.dirs := by
  simp [pathExists, List.elem_iff]

/-- Directory existence, in membership form. -/
theorem pathIsDir_iff (st : ClientState) (q : String) :
    pathIsDir st q = true ↔ q ∈ st.dirs := by
  simp [pathIsDir, List.elem_iff]

/-- Containment, in propositional form. -/
theorem isUnder_iff (root q : String) :
    isUnder root q = true ↔ q = root ∨ (root ++ "/").data <+: q.data := by
  simp [isUnder, List.isPrefixOf_iff_prefix]

/-- Containment is transitive. -/
theorem isUnder_trans {a b c : String} (h1 : isUnder a b = true)
    (h2 : isUnder b c = true) : isUnder a c = true := by
  rw [isUnder_iff] at h1 h2 ⊢
  rcases h1 with rfl | h1
  · exact h2
  · rcases h2 with rfl | h2
    · exact Or.inr h1
    · have hb : b.data <+: (b ++ "/").data := by
        rw [show (b ++ "/").data = b.data ++ "/".data from rfl]
        exact List.prefix_append _ _
      exact Or.inr (h1.trans (hb.trans h2))

/-- Recursive directory removal deletes the directory and everything in
it. -/
theorem pathExists_removeDirAll {st : ClientState} {p q : String}
    (h : isUnder p q = true) : pathExists (removeDirAll st p) q = false := by
  rw [Bool.eq_false_iff]
  intro hc
  have hm : ∀ l : List String, q ∈ l.filter (fun x => !isUnder p x) → False := by
    intro l hq
    rcases List.mem_filter.mp hq with ⟨_, hq2⟩
    simp [h] at hq2
  rcases (pathExists_iff _ _).mp hc with hf | hd
  · exact hm _ hf
  · exact hm _ hd

/-- Recursive directory removal creates no path. -/
theorem pathExists_removeDirAll_mono {st : ClientState} {p q : String}
    (h : pathExists st q = false) : pathExists (removeDirAll st p) q = false := by
  rw [Bool.eq_false_iff] at h ⊢
  intro hc
  apply h
  rw [pathExists_iff] at hc ⊢
  rcases hc with hf | hd
  · exact Or.inl (List.mem_filter.mp hf).1
  · exact Or.inr (List.mem_filter.mp hd).1

/-- One pre-delete step creates no path. -/
theorem pathExists_predeleteOne_mono {st : ClientState} {q : String}
    (a : ArtifactEntry) (h : pathExists st q = false) :
    pathExists (predeleteOne st a) q = false := by
  unfold predeleteOne
  cases a.install_location with
  | reserved => exact h
  | absolutePath p =>
    dsimp only
    by_cases hg : (pathIsDir st p && pathExists st p) = true
    · rw [if_pos hg]
      exact pathExists_removeDirAll_mono h
    · rw [if_neg hg]
      exact h

/-- The whole pre-delete loop creates no path. -/
theorem pathExists_predeleteList_mono : ∀ (l : List ArtifactEntry)
    {st : ClientState} {q : String}, pathExists st q = false →
    pathExists (predeleteList l st) q = false
  | [], _, _, h => h
  | a :: l, st, q, h =>
    pathExists_predeleteList_mono l
      (pathExists_predeleteOne_mono a h :
        pathExists (predeleteOne st a) q = false)

/-- After the pre-delete loop, the location of every artifact in the list
that was an existing directory at entry is gone, together with everything
it contained. -/
theorem predeleteList_deletes : ∀ (l : List ArtifactEntry) (st : ClientState)
    (a : ArtifactEntry) (p : String), a ∈ l →
    a.install_location = .absolutePath p → pathIsDir st p = true →
    ∀ q, isUnder p q = true → pathExists (predeleteList l st) q = false := by
  intro l
  induction l with
  | nil =>
    intro st a p ha
    cases ha
  | cons b l ih =>
    intro st a p ha hloc hdir q hq
    rw [show predeleteList (b :: l) st = predeleteList l (predeleteOne st b) from rfl]
    rcases List.mem_cons.mp ha with rfl | ha2
    · have hex : pathExists st p = true := by
        rw [pathExists_iff]
        exact Or.inr ((pathIsDir_iff _ _).mp hdir)
      have hone : predeleteOne st a = removeDirAll st p := by
        unfold predeleteOne
        rw [hloc]
        dsimp only
        rw [if_pos (by rw [hdir, hex]; rfl)]
      rw [hone]
      exact pathExists_predeleteList_mono l (pathExists_removeDirAll hq)
    · by_cases hdir2 : pathIsDir (predeleteOne st b) p = true
      · exact ih (predeleteOne st b) a p ha2 hloc hdir2 q hq
      · have hq2 : pathExists (predeleteOne st b) q = false := by
          unfold predeleteOne at hdir2 ⊢
          cases hlb : b.install_location with
          | reserved =>
            rw [hlb] at hdir2
            exact absurd hdir hdir2
          | absolutePath r =>
            rw [hlb] at hdir2
            dsimp only at hdir2 ⊢
            by_cases hg : (pathIsDir st r && pathExists st r) = true
            · rw [if_pos hg] at hdir2 ⊢
              have hrp : isUnder r p = true := by
                by_contra hrp
                apply hdir2
                rw [pathIsDir_iff]
                rw [pathIsDir_iff] at hdir
                refine List.mem_filter.mpr ⟨hdir, ?_⟩
                simpa using hrp
              exact pathExists_removeDirAll (isUnder_trans hrp hq)
            · rw [if_neg hg] at hdir2
              exact absurd hdir hdir2
        exact pathExists_predeleteList_mono l hq2

/-! ## Claims -/

/-- Claim C2: `update` runs the download loop on the state left by the
pre-download step, so all deletions happen before any fetch; with the
Recovery Marker present the pre-download step changes nothing; with the
marker absent, every artifact whose `AbsolutePath` location is an existing
directory has that directory (and everything under it) deleted by the
pre-download step. -/
theorem C2_predelete (inst : InstallerM) (net : Nat → ConnectResult)
    (resp : UpdateResponse) (st : ClientState) :
    (update inst net resp st =
      updateFrom inst net resp.required_files (preDeleteStep resp st) 0)
    ∧ (pathExists st markerPath = true → preDeleteStep resp st = st)
    ∧ (pathExists st markerPath = false →
        ∀ a ∈ resp.required_files, ∀ p, a.install_location = .absolutePath p →
          pathIsDir st p = true → ∀ q, isUnder p q = true →
            pathExists (preDeleteStep resp st) q = false) := by
  refine ⟨rfl, ?_, ?_⟩
  · intro h
    unfold preDeleteStep
    rw [if_pos h]
  · intro h a ha p hloc hdir q hq
    unfold preDeleteStep
    rw [if_neg (by simp [h])]
    exact predeleteList_deletes resp.required_files st a p ha hloc hdir q hq

theorem C2_predelete_witness :
    ((update DefaultInstaller cNetOther cRespDir cStateDirs =
      updateFrom DefaultInstaller cNetOther cRespDir.required_files
        (preDeleteStep cRespDir cStateDirs) 0)
    ∧ (pathExists cStateDirs markerPath = true →
        preDeleteStep cRespDir cStateDirs = cStateDirs)
    ∧ (pathExists cStateDirs markerPath = false →
        ∀ a ∈ cRespDir.required_files, ∀ p,
          a.install_location = .absolutePath p →
          pathIsDir cStateDirs p = true → ∀ q, isUnder p q = true →
            pathExists (preDeleteStep cRespDir cStateDirs) q = false))
    ∧ pathExists cStateDirs markerPath = false
    ∧ pathIsDir cStateDirs "sd:/d" = true
    ∧ pathExists (preDeleteStep cRespDir cStateDirs) "sd:/d/old.bin" = false :=
  ⟨C2_predelete DefaultInstaller cNetOther cRespDir cStateDirs,
    by decide, by decide, by decide⟩

/-- Claim C3: in the per-artifact download loop, an artifact with an
`AbsolutePath` destination is skipped (no fetch attempt, no install, the
loop merely records the skip and moves on) exactly when the destination
path exists, the Recovery Marker is present, and the destination's extension
is not `nro`; when it is not skipped its fetch is attempted; and when the
Recovery Marker is absent the guard never skips. -/
theorem C3_skip_guard (inst : InstallerM) (net : Nat → ConnectResult)
    (a : ArtifactEntry) (p : String) (rest : List ArtifactEntry)
    (st : ClientState) (k : Nat)
    (hp : a.install_location = .absolutePath p) :
    (skipGuard st p = true ↔
      (pathExists st p = true ∧ pathExists st markerPath = true ∧ extension p ≠ "nro"))
    ∧ (skipGuard st p = true →
        updateFrom inst net (a :: rest) st k =
          { updateFrom inst net rest st k with
            skipped := a.download_index :: (updateFrom inst net rest st k).skipped })
    ∧ (skipGuard st p = false →
        (updateFrom inst net (a :: rest) st k).attempted.head? = some a.download_index)
    ∧ (pathExists st markerPath = false → skipGuard st p = false) := by
  refine ⟨?_, ?_, ?_, ?_⟩
  · simp [skipGuard, Bool.and_eq_true, bne_iff_ne, and_assoc]
  · intro h
    simp only [updateFrom, hp, h, if_pos]
  · intro h
    simp only [updateFrom, hp]
    rw [if_neg (by simp [h])]
    cases hnet : net k with
    | errExhaustion => simp
    | errOther => simp
    | ok r =>
      cases r with
      | error e => simp
      | ok bytes =>
        cases hins : inst.install_file p bytes st with
        | error e => simp [hins]
        | ok st2 => simp [hins]
  · intro h
    simp [skipGuard, h]

theorem C3_skip_guard_witness :
    cArtifact.install_location = .absolutePath "sd:/a.bin" ∧
    ((skipGuard cState "sd:/a.bin" = true ↔
      (pathExists cState "sd:/a.bin" = true ∧ pathExists cState markerPath = true ∧
        extension "sd:/a.bin" ≠ "nro"))
    ∧ (skipGuard cState "sd:/a.bin" = true →
        updateFrom DefaultInstaller cNetOther (cArtifact :: []) cState 0 =
          { updateFrom DefaultInstaller cNetOther [] cState 0 with
            skipped := cArtifact.download_index ::
              (updateFrom DefaultInstaller cNetOther [] cState 0).skipped })
    ∧ (skipGuard cState "sd:/a.bin" = false →
        (updateFrom DefaultInstaller cNetOther (cArtifact :: []) cState 0).attempted.head? =
          some cArtifact.download_index)
    ∧ (pathExists cState markerPath = false → skipGuard cState "sd:/a.bin" = false)) :=
  ⟨rfl, C3_skip_guard DefaultInstaller cNetOther cArtifact "sd:/a.bin" [] cState 0 rfl⟩

/-- Claim C4: when the data-channel connection for an artifact fails with
the descriptor-exhaustion error, the loop creates the Recovery Marker,
invokes the process-restart action exactly once, attempts no further fetch
and reports failure; any other connection failure reports failure with the
state untouched (no marker created) and no restart; and no run of the loop
ever restarts more than once. -/
theorem C4_exhaustion (inst : InstallerM) (net : Nat → ConnectResult)
    (a : ArtifactEntry) (p : String) (rest : List ArtifactEntry)
    (st : ClientState) (k : Nat)
    (hp : a.install_location = .absolutePath p)
    (hskip : skipGuard st p = false) :
    (net k = .errExhaustion →
      updateFrom inst net (a :: rest) st k =
        { success := false, state := createFile st markerPath, restarts := 1,
          attempted := [a.download_index], skipped := [], installed := [] })
    ∧ (net k = .errOther →
      updateFrom inst net (a :: rest) st k =
        { success := false, state := st, restarts := 0,
          attempted := [a.download_index], skipped := [], installed := [] })
    ∧ (∀ (l : List ArtifactEntry) (st2 : ClientState) (k2 : Nat),
        (updateFrom inst net l st2 k2).restarts ≤ 1) := by
  refine ⟨?_, ?_, fun l st2 k2 => updateFrom_restarts_le_one inst net l st2 k2⟩
  · intro h
    simp only [updateFrom, hp]
    rw [if_neg (by simp [hskip]), h]
  · intro h
    simp only [updateFrom, hp]
    rw [if_neg (by simp [hskip]), h]

theorem C4_exhaustion_witness :
    cArtifact.install_location = .absolutePath "sd:/a.bin" ∧
    skipGuard cState2 "sd:/a.bin" = false ∧
    ((cNetExh 0 = .errExhaustion →
      updateFrom DefaultInstaller cNetExh (cArtifact :: []) cState2 0 =
        { success := false, state := createFile cState2 markerPath, restarts := 1,
          attempted := [cArtifact.download_index], skipped := [], installed := [] })
    ∧ (cNetExh 0 = .errOther →
      updateFrom DefaultInstaller cNetExh (cArtifact :: []) cState2 0 =
        { success := false, state := cState2, restarts := 0,
          attempted := [cArtifact.download_index], skipped := [], installed := [] })
    ∧ (∀ (l : List ArtifactEntry) (st2 : ClientState) (k2 : Nat),
        (updateFrom DefaultInstaller cNetExh l st2 k2).restarts ≤ 1)) :=
  ⟨rfl, by decide,
    C4_exhaustion DefaultInstaller cNetExh cArtifact "sd:/a.bin" [] cState2 0 rfl (by decide)⟩

/-- Removing a file makes the path absent (when no directory shadows it). -/
theorem pathExists_removeFile_self {st : ClientState} {p : String}
    (hd : p ∉ st.dirs) : pathExists (removeFile st p) p = false := by
  rw [Bool.eq_false_iff]
  intro hc
  rcases (pathExists_iff _ _).mp hc with hf | hdd
  · rcases List.mem_filter.mp hf with ⟨_, h2⟩
    simp at h2
  · exact hd hdd

/-- A marker-preserving installation step preserves marker existence. -/
theorem pathExists_marker_install {inst : InstallerM} (hinst : PreservesMarker inst)
    {p : String} {b : List Nat} {st st2 : ClientState}
    (h : inst.install_file p b st = .ok st2) :
    pathExists st2 markerPath = pathExists st markerPath := by
  rcases hinst p b st st2 h with ⟨hf, hd⟩
  rcases hb : pathExists st markerPath with _ | _
  · rw [Bool.eq_false_iff] at hb ⊢
    intro hc
    apply hb
    rw [pathExists_iff] at hc ⊢
    rcases hc with h1 | h1
    · exact Or.inl (hf.mp h1)
    · exact Or.inr (hd.mp h1)
  · rw [pathExists_iff] at hb ⊢
    rcases hb with h1 | h1
    · exact Or.inl (hf.mpr h1)
    · exact Or.inr (hd.mpr h1)

/-- Marker lifecycle of the download loop: a successful run ends with the
marker absent; a failed run leaves marker existence unchanged unless the
run restarted (descriptor exhaustion), which creates it. -/
theorem updateFrom_marker (inst : InstallerM) (net : Nat → ConnectResult)
    (hinst : PreservesMarker inst) :
    ∀ (l : List ArtifactEntry) (st : ClientState) (k : Nat),
      markerPath ∉ st.dirs →
      (((updateFrom inst net l st k).success = true →
          pathExists (updateFrom inst net l st k).state markerPath = false)
      ∧ ((updateFrom inst net l st k).success = false →
          (pathExists (updateFrom inst net l st k).state markerPath = true ↔
            (pathExists st markerPath = true ∨
              (updateFrom inst net l st k).restarts = 1)))) := by
  intro l
  induction l with
  | nil =>
    intro st k hd
    refine ⟨fun _ => ?_, fun hf => ?_⟩
    · simpa [updateFrom] using pathExists_removeFile_self hd
    · simp [updateFrom] at hf
  | cons a rest ih =>
    intro st k hd
    simp only [updateFrom]
    cases a.install_location with
    | reserved => simp
    | absolutePath p =>
      dsimp only
      by_cases hskip : skipGuard st p = true
      · rw [if_pos hskip]
        simpa using ih st k hd
      · rw [if_neg hskip]
        cases hnet : net k with
        | errExhaustion =>
          refine ⟨by simp, fun _ => ?_⟩
          have : pathExists (createFile st markerPath) markerPath = true := by
            rw [pathExists_iff]
            exact Or.inl (List.mem_cons_self _ _)
          simp [this]
        | errOther => simp
        | ok r =>
          cases r with
          | error e => simp
          | ok bytes =>
            cases hins : inst.install_file p bytes st with
            | error e => simp [hins]
            | ok st2 =>
              have hd2 : markerPath ∉ st2.dirs := by
                intro hc
                exact hd ((hinst p bytes st st2 hins).2.mp hc)
              have hpe : pathExists st2 markerPath = pathExists st markerPath :=
                pathExists_marker_install hinst hins
              rcases ih st2 (k + 1) hd2 with ⟨ih1, ih2⟩
              simp only [hins]
              refine ⟨fun hs => ?_, fun hf => ?_⟩
              · exact ih1 (by simpa using hs)
              · rw [ih2 (by simpa using hf), hpe]

/-- Claim C5 counterexample: a failure exit on which the Recovery Marker is
not left unchanged — a descriptor-exhaustion connection failure with the
marker initially absent fails the install and leaves the marker created. -/
theorem C5_counterexample :
    (update DefaultInstaller cNetExh cRespDir cState2).success = false
    ∧ pathExists cState2 markerPath = false
    ∧ pathExists (update DefaultInstaller cNetExh cRespDir cState2).state
        markerPath = true := by
  refine ⟨by decide, by decide, by decide⟩

/-- Claim C5 (amended): the install state machine deletes the Recovery
Marker only on the success path (after which the marker is absent); a
failure exit never deletes it — marker existence is unchanged on every
failure exit except descriptor exhaustion, which creates the marker; and
removing an absent marker is a no-op.  Stated for installers that do not
themselves touch the marker path, as both source installers do. -/
theorem C5_marker_lifecycle (inst : InstallerM) (net : Nat → ConnectResult)
    (resp : UpdateResponse) (st : ClientState)
    (hinst : PreservesMarker inst) (hd : markerPath ∉ st.dirs) :
    ((update inst net resp st).success = true →
        pathExists (update inst net resp st).state markerPath = false)
    ∧ ((update inst net resp st).success = false →
        (pathExists (update inst net resp st).state markerPath = true ↔
          (pathExists st markerPath = true ∨
            (update inst net resp st).restarts = 1)))
    ∧ (pathExists st markerPath = false → removeFile st markerPath = st) := by
  have hkey : pathExists (preDeleteStep resp st) markerPath = pathExists st markerPath
      ∧ markerPath ∉ (preDeleteStep resp st).dirs := by
    unfold preDeleteStep
    by_cases hm : pathExists st markerPath = true
    · rw [if_pos hm]
      exact ⟨rfl, hd⟩
    · rw [if_neg hm]
      have hm2 : pathExists st markerPath = false := by
        rcases hb : pathExists st markerPath with _ | _
        · rfl
        · exact absurd hb hm
      have habs : pathExists (predeleteList resp.required_files st) markerPath = false :=
        pathExists_predeleteList_mono resp.required_files hm2
      refine ⟨by rw [habs, hm2], fun hc => ?_⟩
      rw [Bool.eq_false_iff] at habs
      exact habs ((pathExists_iff _ _).mpr (Or.inr hc))
  rcases hkey with ⟨hpe, hd2⟩
  rcases updateFrom_marker inst net hinst resp.required_files (preDeleteStep resp st) 0 hd2
    with ⟨h1, h2⟩
  refine ⟨h1, fun hf => ?_, fun hm => ?_⟩
  · simp only [update] at hf ⊢
    rw [h2 hf, hpe]
  · have hmf : markerPath ∉ st.files := by
      intro hc
      rw [Bool.eq_false_iff] at hm
      exact hm ((pathExists_iff _ _).mpr (Or.inl hc))
    cases st with
    | mk files dirs =>
      simp only [removeFile]
      congr 1
      rw [List.filter_eq_self]
      intro a ha
      simp only [decide_eq_true_eq]
      intro hEq
      exact hmf (hEq ▸ ha)

theorem C5_marker_lifecycle_witness :
    PreservesMarker DefaultInstaller
    ∧ markerPath ∉ cState2.dirs
    ∧ (((update DefaultInstaller cNetExh cRespDir cState2).success = true →
          pathExists (update DefaultInstaller cNetExh cRespDir cState2).state
            markerPath = false)
      ∧ ((update DefaultInstaller cNetExh cRespDir cState2).success = false →
          (pathExists (update DefaultInstaller cNetExh cRespDir cState2).state
              markerPath = true ↔
            (pathExists cState2 markerPath = true ∨
              (update DefaultInstaller cNetExh cRespDir cState2).restarts = 1)))
      ∧ (pathExists cState2 markerPath = false →
          removeFile cState2 markerPath = cState2)) :=
  have hpm : PreservesMarker DefaultInstaller := by
    intro p b st st2 h
    injection h with h2
    rw [← h2]
    exact ⟨Iff.rfl, Iff.rfl⟩
  ⟨hpm, by decide,
    C5_marker_lifecycle DefaultInstaller cNetExh cRespDir cState2 hpm (by decide)⟩

/-- Claim C6: `custom_check_update` returns `true` exactly when the control
exchange succeeded end to end (connection, request encode, response decode),
the response code is `Update`, the installer's `should_update` agreed, and
the install succeeded; every other response code (`NoUpdate`,
`InvalidRequest`, `PluginNotFound`, catch-all) and every control-channel
failure returns `false` with no artifact fetched or installed and the
filesystem untouched. -/
theorem C6_response_codes (inst : InstallerM) (net : Nat → ConnectResult)
    (ctrl : ControlResult) (st : ClientState) :
    ((custom_check_update inst net ctrl st).result = true ↔
      ∃ resp, ctrl = .connected true (some resp) ∧ resp.code = .update ∧
        inst.should_update resp = true ∧ (update inst net resp st).success = true)
    ∧ (∀ resp, ctrl = .connected true (some resp) → resp.code ≠ .update →
        custom_check_update inst net ctrl st = ⟨false, [], [], st⟩)
    ∧ (ctrl = .connectErr →
        custom_check_update inst net ctrl st = ⟨false, [], [], st⟩)
    ∧ (∀ d, ctrl = .connected false d →
        custom_check_update inst net ctrl st = ⟨false, [], [], st⟩)
    ∧ (ctrl = .connected true none →
        custom_check_update inst net ctrl st = ⟨false, [], [], st⟩) := by
  cases ctrl with
  | connectErr => simp [custom_check_update]
  | connected enc dec =>
    cases enc with
    | false =>
      cases dec <;> simp [custom_check_update]
    | true =>
      cases dec with
      | none => simp [custom_check_update]
      | some resp =>
        refine ⟨?_, ?_, by simp, by simp, by simp⟩
        · by_cases hs : inst.should_update resp = true
          · cases hc : resp.code <;> simp [custom_check_update, hc, hs]
          · cases hc : resp.code <;> simp [custom_check_update, hc, hs]
        · intro r hr hne
          injection hr with h1 h2
          injection h2 with h3
          subst h3
          cases hc : resp.code with
          | update => exact absurd hc hne
          | noUpdate => simp [custom_check_update, hc]
          | invalidRequest => simp [custom_check_update, hc]
          | pluginNotFound => simp [custom_check_update, hc]
          | other => simp [custom_check_update, hc]

theorem C6_response_codes_witness :
    ((custom_check_update DefaultInstaller cNetOther
        (.connected true (some cRespNoUpd)) cState2).result = true ↔
      ∃ resp, ControlResult.connected true (some cRespNoUpd) =
          .connected true (some resp) ∧ resp.code = .update ∧
        DefaultInstaller.should_update resp = true ∧
        (update DefaultInstaller cNetOther resp cState2).success = true)
    ∧ (∀ resp, ControlResult.connected true (some cRespNoUpd) =
          .connected true (some resp) → resp.code ≠ .update →
        custom_check_update DefaultInstaller cNetOther
          (.connected true (some cRespNoUpd)) cState2 = ⟨false, [], [], cState2⟩)
    ∧ (ControlResult.connected true (some cRespNoUpd) = .connectErr →
        custom_check_update DefaultInstaller cNetOther
          (.connected true (some cRespNoUpd)) cState2 = ⟨false, [], [], cState2⟩)
    ∧ (∀ d, ControlResult.connected true (some cRespNoUpd) = .connected false d →
        custom_check_update DefaultInstaller cNetOther
          (.connected true (some cRespNoUpd)) cState2 = ⟨false, [], [], cState2⟩)
    ∧ (ControlResult.connected true (some cRespNoUpd) = .connected true none →
        custom_check_update DefaultInstaller cNetOther
          (.connected true (some cRespNoUpd)) cState2 = ⟨false, [], [], cState2⟩) :=
  C6_response_codes DefaultInstaller cNetOther (.connected true (some cRespNoUpd)) cState2

/-- Claim C7: the registry build never fails wholesale because one package
definition is bad — a definition whose manifest is unreadable, whose
manifest fails to parse (TOML syntax or its `version` field), or whose
declared file cannot be read resolves to a reported error, and an
error-resolving entry is simply dropped from the registry, leaving every
other definition's resolution unchanged. -/
theorem C7_registry_isolation (fs : ServerFs) :
    (∀ d : DirEntry, d.isDir = true →
      fs.readStr (pathJoin d.path "plugin.toml") = .error () →
      folder_to_plugin fs (.ok d) = .error .err)
    ∧ (∀ (d : DirEntry) (content : String), d.isDir = true →
      fs.readStr (pathJoin d.path "plugin.toml") = .ok content →
      fs.parseTomlStr content = .error () →
      folder_to_plugin fs (.ok d) = .error .err)
    ∧ (∀ (d : DirEntry) (content : String) (raw : RawToml), d.isDir = true →
      fs.readStr (pathJoin d.path "plugin.toml") = .ok content →
      fs.parseTomlStr content = .ok raw →
      parseToml raw = .error () →
      folder_to_plugin fs (.ok d) = .error .err)
    ∧ (∀ (d : DirEntry) (content : String) (raw : RawToml) (toml : PluginToml),
      d.isDir = true →
      fs.readStr (pathJoin d.path "plugin.toml") = .ok content →
      fs.parseTomlStr content = .ok raw →
      parseToml raw = .ok toml →
      mapFilesM fs d.path toml.files = .error .err →
      folder_to_plugin fs (.ok d) = .error .err)
    ∧ (∀ (es1 es2 : List (Except Unit DirEntry)) (e : Except Unit DirEntry),
      folder_to_plugin fs e = .error .err →
      getAux fs (es1 ++ e :: es2) = getAux fs (es1 ++ es2)) := by
  refine ⟨?_, ?_, ?_, ?_, ?_⟩
  · intro d hd hr
    simp [folder_to_plugin, hd, hr]
  · intro d content hd hr hp
    simp [folder_to_plugin, hd, hr, hp]
  · intro d content raw hd hr hp hv
    simp [folder_to_plugin, hd, hr, hp, hv]
  · intro d content raw toml hd hr hp hv hm
    simp [folder_to_plugin, hd, hr, hp, hv, hm]
  · intro es1 es2 e h
    induction es1 with
    | nil => simp [getAux, h]
    | cons x es1 ih =>
      simp only [List.cons_append, getAux, List.append_eq]
      rw [ih]

theorem C7_registry_isolation_witness :
    DirEntry.isDir ⟨"plugins/m", true⟩ = true
    ∧ sFs.readStr (pathJoin "plugins/m" "plugin.toml") = .error ()
    ∧ folder_to_plugin sFs entryM = .error .err
    ∧ getAux sFs [entryG, entryM] = getAux sFs [entryG]
    ∧ getAux sFs [entryG] = .ok [pluginG] :=
  ⟨rfl, rfl, (C7_registry_isolation sFs).1 ⟨"plugins/m", true⟩ rfl rfl,
    (C7_registry_isolation sFs).2.2.2.2 [entryG] [] entryM
      ((C7_registry_isolation sFs).1 ⟨"plugins/m", true⟩ rfl rfl), rfl⟩

/-- Claim C8 counterexample: definition `b` has a folder whose walked file
path has no `plugins` component (its `root_name` is absolute); resolving it
panics, and the panic takes the whole registry build down — `get` returns
the panic even though the sibling definition `g` resolves fine on its own —
instead of skipping `b` as a reported per-definition error. -/
theorem C8_counterexample :
    folder_to_plugin sFs entryG = .ok (some pluginG)
    ∧ folder_to_plugin sFs entryB = .error .panic
    ∧ get sFs (.ok [entryG, entryB]) = .error .panic :=
  ⟨rfl, rfl, rfl⟩

/-- Claim C8 (amended): a walked regular file whose path has no resolvable
anchor point makes the folder walk panic (the `unwrap` on the anchor
computation), the panic propagates through definition resolution, and a
panicking entry terminates the whole registry build rather than being
skipped as a per-definition error. -/
theorem C8_anchor_panic (fs : ServerFs) :
    (∀ (loc : InstallLocation) (e : WalkEntry)
        (rest : List (Except Unit WalkEntry))
        (files : List (InstallLocation × List Nat)),
      e.isDir = false → anchoredRelPath e.path = none →
      processWalk fs loc (.ok e :: rest) files = .error .panic)
    ∧ (∀ (d : DirEntry) (content : String) (raw : RawToml) (toml : PluginToml)
        (fl : List PluginFolder) (fileArts : List (InstallLocation × List Nat)),
      d.isDir = true →
      fs.readStr (pathJoin d.path "plugin.toml") = .ok content →
      fs.parseTomlStr content = .ok raw →
      parseToml raw = .ok toml →
      mapFilesM fs d.path toml.files = .ok fileArts →
      toml.folders = some fl →
      processFolders fs d.path fl fileArts = .error .panic →
      folder_to_plugin fs (.ok d) = .error .panic)
    ∧ (∀ es : List (Except Unit DirEntry),
      (∃ e ∈ es, folder_to_plugin fs e = .error .panic) →
      getAux fs es = .error .panic) := by
  refine ⟨?_, ?_, ?_⟩
  · intro loc e rest files he ha
    simp [processWalk, he, ha]
  · intro d content raw toml fl fileArts hd hr hp hv hm hfl hpf
    simp [folder_to_plugin, hd, hr, hp, hv, hm, hfl, hpf]
  · intro es hex
    induction es with
    | nil =>
      rcases hex with ⟨e, he, _⟩
      cases he
    | cons x es ih =>
      rcases hex with ⟨e, he, hpe⟩
      rcases List.mem_cons.mp he with rfl | he2
      · simp [getAux, hpe]
      · simp only [getAux]
        cases hx : folder_to_plugin fs x with
        | error er =>
          cases er with
          | panic => rfl
          | err => exact ih ⟨e, he2, hpe⟩
        | ok o =>
          cases o with
          | none => exact ih ⟨e, he2, hpe⟩
          | some p => rw [ih ⟨e, he2, hpe⟩]

theorem C8_anchor_panic_witness :
    WalkEntry.isDir ⟨"/ext/r/a.txt", false⟩ = false
    ∧ anchoredRelPath "/ext/r/a.txt" = none
    ∧ processWalk sFs (.absolutePath "sd:/d")
        [.ok ⟨"/ext/r/a.txt", false⟩] [] = .error .panic
    ∧ getAux sFs [entryB] = .error .panic :=
  ⟨rfl, by decide,
    (C8_anchor_panic sFs).1 (.absolutePath "sd:/d") ⟨"/ext/r/a.txt", false⟩ [] []
      rfl (by decide),
    (C8_anchor_panic sFs).2.2 [entryB] ⟨entryB, by simp, rfl⟩⟩

/-- A successful walk prepends exactly the walk's artifacts, reversed. -/
theorem processWalk_ok_eq (fs : ServerFs) (loc : InstallLocation) :
    ∀ (walk : List (Except Unit WalkEntry))
      (files out : List (InstallLocation × List Nat)),
      processWalk fs loc walk files = .ok out →
      out = (walk.filterMap (walkArtifact fs loc)).reverse ++ files := by
  intro walk
  induction walk with
  | nil =>
    intro files out h
    injection h with h2
    simp [h2.symm]
  | cons we rest ih =>
    intro files out h
    cases we with
    | error e =>
      exact absurd h (by simp [processWalk])
    | ok e =>
      by_cases hdir : e.isDir = true
      · rw [show processWalk fs loc (.ok e :: rest) files
              = processWalk fs loc rest files by simp [processWalk, hdir]] at h
        rw [ih files out h]
        simp [walkArtifact, hdir]
      · have hdir2 : e.isDir = false := by
          rcases hb : e.isDir with _ | _
          · rfl
          · exact absurd hb hdir
        cases ha : anchoredRelPath e.path with
        | none =>
          exact absurd h (by simp [processWalk, hdir2, ha])
        | some rel =>
          cases hr : fs.read e.path with
          | error er =>
            exact absurd h (by simp [processWalk, hdir2, ha, hr])
          | ok bytes =>
            rw [show processWalk fs loc (.ok e :: rest) files
                  = processWalk fs loc rest
                      ((InstallLocation.absolutePath
                        (pathJoin (rewriteBase loc) rel), bytes) :: files)
                  by simp [processWalk, hdir2, ha, hr]] at h
            rw [ih _ out h]
            simp [walkArtifact, hdir2, ha, hr, List.reverse_cons, List.append_assoc]

/-- A successful folder pass produces: all folders' walked artifacts (later
folders in front), then the original (`FileEntry`) artifacts, then one
zero-length sentinel per folder, in folder order. -/
theorem processFolders_ok_eq (fs : ServerFs) (defnPath : String) :
    ∀ (fl : List PluginFolder) (files out : List (InstallLocation × List Nat)),
      processFolders fs defnPath fl files = .ok out →
      out = ((fl.map (specFolderArtifacts fs defnPath)).reverse).flatten ++ files
        ++ fl.map (fun g => (g.install_root_location, ([] : List Nat))) := by
  intro fl
  induction fl with
  | nil =>
    intro files out h
    injection h with h2
    simp [h2.symm]
  | cons g fl ih =>
    intro files out h
    rw [show processFolders fs defnPath (g :: fl) files
          = (match processWalk fs g.install_root_location
              (fs.walk (pathJoin fs.cwd (pathJoin defnPath g.root_name))) files with
            | .error e => .error e
            | .ok files2 => processFolders fs defnPath fl
                (files2 ++ [(g.install_root_location, [])])) from rfl] at h
    cases hw : processWalk fs g.install_root_location
        (fs.walk (pathJoin fs.cwd (pathJoin defnPath g.root_name))) files with
    | error e =>
      rw [hw] at h
      cases h
    | ok files2 =>
      rw [hw] at h
      have h2 := ih (files2 ++ [(g.install_root_location, [])]) out h
      rw [processWalk_ok_eq fs g.install_root_location _ files files2 hw] at h2
      rw [h2]
      simp only [List.map_cons, List.reverse_cons, List.flatten_append,
        List.flatten_cons, List.flatten_nil, List.append_nil, List.append_assoc,
        List.cons_append, List.nil_append, specFolderArtifacts]

/-- Claim C1 counterexample: definition `p1` has a folder whose
`install_root_location` is a reserved (non-`AbsolutePath`) variant; its
walked file resolves fine with anchored relative path `a.txt`, but its
artifact is placed under the literal path `ERR`, which is not the relative
path rewritten under `install_root_location`. -/
theorem C1_counterexample :
    folder_to_plugin sFs entryP1 = .ok (some pluginP1)
    ∧ pluginP1.files.head? = some (.absolutePath "ERR/a.txt", [9])
    ∧ anchoredRelPath "cwd/plugins/p1/r/a.txt" = some "a.txt"
    ∧ ¬ rewrittenUnder InstallLocation.reserved "a.txt"
        (.absolutePath "ERR/a.txt") := by
  refine ⟨rfl, rfl, by decide, ?_⟩
  rintro ⟨base, hb, _⟩
  cases hb

/-- Claim C1 (amended): for a definition whose resolution succeeds, the
artifact list is exactly the folders' walked regular files (reversed per
folder, later folders first — in particular all of them ahead of every
plain `FileEntry` artifact), then the `FileEntry` artifacts, then one
zero-length sentinel per folder at the folder's own `install_root_location`;
each walked regular file's artifact sits at its anchored relative path
rewritten under the folder's rewrite base (the install root's absolute path,
or the literal path `ERR` for a reserved variant). -/
theorem C1_folder_resolution (fs : ServerFs) (d : DirEntry) (content : String)
    (raw : RawToml) (toml : PluginToml) (fl : List PluginFolder)
    (fileArts arts : List (InstallLocation × List Nat))
    (hd : d.isDir = true)
    (h1 : fs.readStr (pathJoin d.path "plugin.toml") = .ok content)
    (h2 : fs.parseTomlStr content = .ok raw)
    (h3 : parseToml raw = .ok toml)
    (h4 : toml.folders = some fl)
    (h5 : mapFilesM fs d.path toml.files = .ok fileArts)
    (h6 : processFolders fs d.path fl fileArts = .ok arts) :
    folder_to_plugin fs (.ok d) = .ok (some
      { name := toml.name, plugin_version := toml.version, files := arts,
        skyline_version := toml.skyline_version.getD ⟨0, 0, 0, "", ""⟩,
        beta := toml.beta.getD false,
        metadata := resolveMetadata fs toml.metadata })
    ∧ arts = ((fl.map (specFolderArtifacts fs d.path)).reverse).flatten
        ++ fileArts
        ++ fl.map (fun g => (g.install_root_location, ([] : List Nat)))
    ∧ (∀ g ∈ fl, ∀ (e : WalkEntry) (rel : String) (bytes : List Nat),
        (.ok e) ∈ fs.walk (pathJoin fs.cwd (pathJoin d.path g.root_name)) →
        e.isDir = false → anchoredRelPath e.path = some rel →
        fs.read e.path = .ok bytes →
        (InstallLocation.absolutePath
          (pathJoin (rewriteBase g.install_root_location) rel), bytes) ∈ arts) := by
  have harts := processFolders_ok_eq fs d.path fl fileArts arts h6
  refine ⟨?_, harts, ?_⟩
  · simp [folder_to_plugin, hd, h1, h2, h3, h4, h5, h6]
  · intro g hg e rel bytes hwe he ha hr
    rw [harts]
    refine List.mem_append.mpr (Or.inl (List.mem_append.mpr (Or.inl ?_)))
    rw [List.mem_flatten]
    refine ⟨specFolderArtifacts fs d.path g, ?_, ?_⟩
    · exact List.mem_reverse.mpr (List.mem_map_of_mem _ hg)
    · unfold specFolderArtifacts
      rw [List.mem_reverse]
      exact List.mem_filterMap.mpr ⟨.ok e, hwe, by simp [walkArtifact, he, ha, hr]⟩

theorem C1_folder_resolution_witness :
    folder_to_plugin sFs (.ok ⟨"plugins/p2", true⟩) = .ok (some
      { name := tomlP2.name, plugin_version := tomlP2.version, files := artsP2,
        skyline_version := tomlP2.skyline_version.getD ⟨0, 0, 0, "", ""⟩,
        beta := tomlP2.beta.getD false,
        metadata := resolveMetadata sFs tomlP2.metadata })
    ∧ artsP2 = (([⟨.absolutePath "sd:/data", "r"⟩].map
          (specFolderArtifacts sFs "plugins/p2")).reverse).flatten
        ++ [(.absolutePath "sd:/plugin.nro", [7])]
        ++ [(⟨.absolutePath "sd:/data", "r"⟩ : PluginFolder)].map
            (fun g => (g.install_root_location, ([] : List Nat)))
    ∧ (∀ g ∈ [(⟨.absolutePath "sd:/data", "r"⟩ : PluginFolder)],
        ∀ (e : WalkEntry) (rel : String) (bytes : List Nat),
        (.ok e) ∈ sFs.walk (pathJoin sFs.cwd (pathJoin "plugins/p2" g.root_name)) →
        e.isDir = false → anchoredRelPath e.path = some rel →
        sFs.read e.path = .ok bytes →
        (InstallLocation.absolutePath
          (pathJoin (rewriteBase g.install_root_location) rel), bytes) ∈ artsP2) :=
  C1_folder_resolution sFs ⟨"plugins/p2", true⟩ "T2" rawP2 tomlP2
    [⟨.absolutePath "sd:/data", "r"⟩] [(.absolutePath "sd:/plugin.nro", [7])]
    artsP2 rfl rfl rfl rfl rfl rfl rfl

/-- Claim C10: a present but unparseable `skyline_version` field
deserializes to `none` rather than an error (so the definition is never
failed for this reason), the parsed document is identical to the one with
the field absent, and the resolved package's `skyline_version` defaults to
`0.0.0`. -/
theorem C10_skyline_version_default (fs : ServerFs) :
    (∀ s : String, parseVersion s = none →
      version_parse_opt_deserialize s = .ok none)
    ∧ (∀ (raw : RawToml) (s : String), raw.skyline_version = some s →
        parseVersion s = none →
        parseToml raw = parseToml { raw with skyline_version := none })
    ∧ (∀ (d : DirEntry) (content : String) (raw : RawToml) (toml : PluginToml)
        (plugin : Plugin),
        d.isDir = true →
        fs.readStr (pathJoin d.path "plugin.toml") = .ok content →
        fs.parseTomlStr content = .ok raw →
        parseToml raw = .ok toml →
        toml.skyline_version = none →
        folder_to_plugin fs (.ok d) = .ok (some plugin) →
        plugin.skyline_version = ⟨0, 0, 0, "", ""⟩) := by
  refine ⟨?_, ?_, ?_⟩
  · intro s h
    simp [version_parse_opt_deserialize, version_parse_deserialize, h,
      Except.toOption]
  · intro raw s hs h
    cases hv : version_parse_deserialize raw.version with
    | error e =>
      simp [parseToml, hv]
    | ok version =>
      simp [parseToml, hv, hs, version_parse_opt_deserialize,
        version_parse_deserialize, h, Except.toOption]
  · intro d content raw toml plugin hd hr hp hv hnone hplug
    rw [show folder_to_plugin fs (.ok d)
          = (match mapFilesM fs d.path toml.files with
            | .error e => .error e
            | .ok fileArts =>
              match processFolders fs d.path (toml.folders.getD []) fileArts with
              | .error e => .error e
              | .ok arts =>
                .ok (some
                  { name := toml.name,
                    plugin_version := toml.version,
                    files := arts,
                    skyline_version := toml.skyline_version.getD ⟨0, 0, 0, "", ""⟩,
                    beta := toml.beta.getD false,
                    metadata := resolveMetadata fs toml.metadata }))
          by simp [folder_to_plugin, hd, hr, hp, hv]] at hplug
    cases hm : mapFilesM fs d.path toml.files with
    | error e =>
      rw [hm] at hplug
      cases hplug
    | ok fileArts =>
      rw [hm] at hplug
      dsimp only at hplug
      cases hpf : processFolders fs d.path (toml.folders.getD []) fileArts with
      | error e =>
        rw [hpf] at hplug
        cases hplug
      | ok arts =>
        rw [hpf] at hplug
        dsimp only at hplug
        injection hplug with h2
        injection h2 with h3
        rw [← h3, hnone]
        rfl

theorem C10_skyline_version_default_witness :
    parseVersion "garbage" = none
    ∧ rawS.skyline_version = some "garbage"
    ∧ parseToml rawS = .ok tomlS
    ∧ folder_to_plugin sFs entryS = .ok (some pluginS)
    ∧ version_parse_opt_deserialize "garbage" = .ok none
    ∧ parseToml rawS = parseToml { rawS with skyline_version := none }
    ∧ pluginS.skyline_version = ⟨0, 0, 0, "", ""⟩ :=
  ⟨by decide, rfl, rfl, rfl,
    (C10_skyline_version_default sFs).1 "garbage" (by decide),
    (C10_skyline_version_default sFs).2.1 rawS "garbage" rfl (by decide),
    (C10_skyline_version_default sFs).2.2 ⟨"plugins/s", true⟩ "TS" rawS tomlS
      pluginS rfl rfl rfl rfl rfl rfl⟩

/-- Claim C9: for every valid semantic version (pre-release and build
metadata included), serializing the version field with
`version_parse::serialize` and deserializing the result with
`version_parse::deserialize` reproduces the identical version. -/
theorem C9_version_roundtrip (v : Version) (hv : ValidVersion v) :
    version_parse_deserialize (version_parse_serialize v) = .ok v := by
  rcases v with ⟨M, m, p, pre, build⟩
  rcases hv with ⟨hv1, hv2⟩
  have hparse : parseVersionChars (Version.displayChars ⟨M, m, p, pre, build⟩)
      = some ⟨M, m, p, pre, build⟩ := by
    by_cases hpre : pre.data = []
    · by_cases hbuild : build.data = []
      · have hpre0 : pre = "" := string_eq_empty hpre
        have hbuild0 : build = "" := string_eq_empty hbuild
        have hd : Version.displayChars ⟨M, m, p, pre, build⟩
            = natToString M ++ '.' :: natToString m ++ '.' :: natToString p := by
          simp [Version.displayChars, hpre, hbuild]
        rw [hd]
        have h1 := splitFirst_not_mem (c := '+')
          (not_mem_core (by decide) (by decide) M m p)
        have h2 := splitFirst_not_mem (c := '-')
          (not_mem_core (by decide) (by decide) M m p)
        simp only [parseVersionChars, h1, h2, splitChar_core,
          parseNatSemver_natToString]
        simp [hpre0, hbuild0]
      · have hpre0 : pre = "" := string_eq_empty hpre
        have hvb : validBuild build.data = true := validBuild_of_valid hv2 hbuild
        have hd : Version.displayChars ⟨M, m, p, pre, build⟩
            = (natToString M ++ '.' :: natToString m ++ '.' :: natToString p)
              ++ '+' :: build.data := by
          simp [Version.displayChars, hpre, hbuild]
        rw [hd]
        have h1 := splitFirst_append (c := '+') build.data
          (not_mem_core (by decide) (by decide) M m p)
        have h2 := splitFirst_not_mem (c := '-')
          (not_mem_core (by decide) (by decide) M m p)
        simp only [parseVersionChars, h1, h2, splitChar_core,
          parseNatSemver_natToString]
        simp [hvb, mk_data, hpre0]
    · have hvp : validPre pre.data = true := validPre_of_valid hv1 hpre
      by_cases hbuild : build.data = []
      · have hbuild0 : build = "" := string_eq_empty hbuild
        have hd : Version.displayChars ⟨M, m, p, pre, build⟩
            = (natToString M ++ '.' :: natToString m ++ '.' :: natToString p)
              ++ '-' :: pre.data := by
          simp [Version.displayChars, hpre, hbuild]
        rw [hd]
        have h1 := splitFirst_not_mem (plus_not_mem_corePre M m p hvp)
        have h2 := splitFirst_append (c := '-') pre.data
          (not_mem_core (by decide) (by decide) M m p)
        simp only [parseVersionChars, h1, h2, splitChar_core,
          parseNatSemver_natToString]
        simp [hvp, mk_data, hbuild0]
      · have hvb : validBuild build.data = true := validBuild_of_valid hv2 hbuild
        have hd : Version.displayChars ⟨M, m, p, pre, build⟩
            = ((natToString M ++ '.' :: natToString m ++ '.' :: natToString p)
              ++ '-' :: pre.data) ++ '+' :: build.data := by
          simp [Version.displayChars, hpre, hbuild]
        rw [hd]
        have h1 := splitFirst_append (c := '+') build.data
          (plus_not_mem_corePre M m p hvp)
        have h2 := splitFirst_append (c := '-') pre.data
          (not_mem_core (by decide) (by decide) M m p)
        simp only [parseVersionChars, h1, h2, splitChar_core,
          parseNatSemver_natToString]
        simp [hvp, hvb, mk_data]
  unfold version_parse_deserialize version_parse_serialize parseVersion
  rw [show (String.mk (Version.displayChars ⟨M, m, p, pre, build⟩)).data
        = Version.displayChars ⟨M, m, p, pre, build⟩ from rfl]
  rw [hparse]

theorem C9_version_roundtrip_witness :
    ValidVersion ⟨1, 2, 3, "alpha.1", "xyz-5"⟩
    ∧ version_parse_deserialize
        (version_parse_serialize ⟨1, 2, 3, "alpha.1", "xyz-5"⟩)
      = .ok ⟨1, 2, 3, "alpha.1", "xyz-5"⟩ :=
  ⟨by decide, C9_version_roundtrip ⟨1, 2, 3, "alpha.1", "xyz-5"⟩ (by decide)⟩

end SkyUpd


